import Mathlib

/-!
# SpecPilot core — shallow embedding and verification

This file embeds the data model and the operations of the SpecPilot
backend (job/step tracking, staged pipeline state machine, cascade
deletion/regeneration logic over the artifact store) as executable Lean
definitions, translated from:

* `backend/app/models/schemas.py` — artifact record types;
* `backend/app/services/job_manager.py` — `Job.add_step`, `Job.update_step`,
  `Job.advance_stage`, `Job.complete_current_stage`, `Job.mark_failed`;
* `backend/app/services/generation_pipeline.py` — `GenerationPipeline.run`
  and the per-stage step bookkeeping;
* `backend/app/routes/generation.py` — `delete_epic`, `delete_story`,
  `regenerate_story_tests` (`_regenerate_tests`), `generate_more_tests`,
  `analyze_cascade_impact`;
* `backend/app/routes/staged_endpoints.py` — `proceed_to_stage`.

External collaborators (the LLM Artifact Generator, the document parser,
wall-clock time) are modelled as explicit parameters: a generator call
becomes an `Except`-valued argument (its success value is the structured
result list, its error the raised exception's message), `datetime.now()`
becomes a `Nat` timestamp argument.  Python `Optional` fields become
`Option`; Python lists become `List`.
-/

namespace SpecPilot

/-- `StepStatus` from `schemas.py` (also used for stage states). -/
inductive StepStatus where
  | pending
  | running
  | completed
  | failed
deriving DecidableEq, Repr

/-- `Step` from `schemas.py`: name, status, optional duration in ms. -/
structure Step where
  name : String
  status : StepStatus
  duration_ms : Option Nat := none
deriving DecidableEq, Repr

/-- Modelled from the spec: the `PipelineStage` enum is imported from
`app.models` whose defining module is not part of the sources; the spec
gives the ordered stage enum {PARSE(implicit), EPICS, DATA_MODEL,
FUNCTIONAL_TESTS, GHERKIN_TESTS, CODE_GENERATION}; PARSE is implicit and
never a `PipelineStage` value in the routes. -/
inductive PipelineStage where
  | epics
  | data_model
  | functional_tests
  | gherkin_tests
  | code_generation
deriving DecidableEq, Repr

/-- Modelled from the spec: `StageState` is imported from `app.models`
whose defining module is not part of the sources; the spec describes it as
"stage, status, started/completed timestamps, a boolean user approved
flag".  Timestamps are abstract `Nat` instants. -/
structure StageState where
  stage : PipelineStage
  status : StepStatus
  started_at : Option Nat := none
  completed_at : Option Nat := none
  user_approved : Bool := false
deriving DecidableEq, Repr

/-- `AcceptanceCriterion` from `schemas.py`. -/
structure AcceptanceCriterion where
  id : String
  text : String
  source_chunks : Option (List String) := none
deriving DecidableEq, Repr

/-- `UserStory` from `schemas.py`. -/
structure UserStory where
  id : String
  epic_id : String
  title : String
  role : String
  goal : String
  benefit : String
  acceptance_criteria : List AcceptanceCriterion
  source_chunks : Option (List String) := none
  edited_at : Option Nat := none
  regeneration_needed : Bool := false
deriving DecidableEq, Repr

/-- `Epic` from `schemas.py`. -/
structure Epic where
  id : String
  name : String
  description : String
  edited_at : Option Nat := none
deriving DecidableEq, Repr

/-- `FunctionalTest` from `schemas.py`. -/
structure FunctionalTest where
  id : String
  story_id : String
  title : String
  objective : String
  preconditions : List String
  test_steps : List String
  expected_results : List String
  source_chunks : Option (List String) := none
  regenerated_at : Option Nat := none
deriving DecidableEq, Repr

/-- `GherkinScenario` from `schemas.py` (`then` is a Lean keyword, so the
`then` field is rendered `then_steps`; likewise `when` → `when_steps`). -/
structure GherkinScenario where
  id : String
  story_id : String
  feature_name : String
  scenario_name : String
  given : List String
  when_steps : List String
  then_steps : List String
  source_chunks : Option (List String) := none
  regenerated_at : Option Nat := none
deriving DecidableEq, Repr

/-- `EntityField` from `schemas.py`. -/
structure EntityField where
  name : String
  type : String
  required : Bool
deriving DecidableEq, Repr

/-- `Entity` from `schemas.py`. -/
structure Entity where
  name : String
  description : String
  fields : List EntityField
  regenerated_at : Option Nat := none
  source_story_ids : Option (List String) := some []
deriving DecidableEq, Repr

/-- `GapFix` from `schemas.py`.  The source comment on `user_action`
documents the disposition values as
`"accepted" | "edited" | "rejected" | "pending"`. -/
structure GapFix where
  gap_id : String
  gap_description : String
  affected_section : String
  current_text : String
  suggested_fix : String
  rationale : String
  confidence : String
  user_action : Option String := none
  final_text : Option String := none
deriving DecidableEq, Repr

/-- One entry of the parsed document's `chunks` list
(`brd_parser.py` emits dicts with keys `id`, `type`, `section_id`,
`text`; the routes only read `id` and pass the chunk through). -/
structure Chunk where
  id : String
  type : String
  text : String
deriving DecidableEq, Repr

/-- `GenerationResults` from `schemas.py`, restricted to the artifact
collections the verified operations read or write (the code-skeleton and
validation-report fields are never touched by them). -/
structure GenerationResults where
  project_name : Option String := none
  epics : List Epic := []
  user_stories : List UserStory := []
  functional_tests : List FunctionalTest := []
  gherkin_tests : List GherkinScenario := []
  entities : List Entity := []
  mermaid : Option String := none
  gap_fixes : List GapFix := []
deriving DecidableEq, Repr

/-- `JobStatus` from `schemas.py`. -/
inductive JobStatus where
  | pending
  | running
  | completed
  | failed
deriving DecidableEq, Repr

/-- The parsed document as the routes see it (`job.brd_data`): the only
field the verified operations read is `chunks`. -/
structure BrdData where
  chunks : List Chunk := []
deriving DecidableEq, Repr

/-- `Job` from `job_manager.py` (fields as in `Job.__init__`; the
`artefacts` toggle config is carried separately by the pipeline model). -/
structure Job where
  job_id : String
  instructions : String := ""
  status : JobStatus := .pending
  error : Option String := none
  steps : List Step := []
  results : GenerationResults := {}
  brd_data : Option BrdData := none
  uploaded_filename : Option String := none
  current_stage : Option PipelineStage := none
  stage_history : List StageState := []
deriving DecidableEq, Repr

/-! ## Job step tracking (`job_manager.py`) -/

/-- `Job.add_step`: append a new `pending` step; no uniqueness check on
the name. -/
def add_step (steps : List Step) (name : String) : List Step :=
  steps ++ [{ name := name, status := .pending }]

/-- `Job.update_step`: walk the step list, update the first step whose
name matches (status always; duration only when given) and stop
(`break`); if no step matches, do nothing. -/
def update_step : List Step → String → StepStatus → Option Nat → List Step
  | [], _, _, _ => []
  | s :: rest, name, status, duration_ms =>
    if s.name = name then
      { s with status := status,
               duration_ms := match duration_ms with
                              | some d => some d
                              | none => s.duration_ms } :: rest
    else s :: update_step rest name status duration_ms

/-! ## Cascade deletion (`generation.py`, `delete_epic`) -/

/-- The `deleted_story_ids` list computed by `delete_epic`: ids of the
stories whose `epic_id` matches the epic being deleted. -/
def deleted_story_ids (epic_id : String) (r : GenerationResults) :
    List String :=
  (r.user_stories.filter (fun s => s.epic_id = epic_id)).map (·.id)

/-- `delete_epic` route body after job lookup: `none` when no epic with
the given id exists (HTTP 404, store untouched); otherwise remove the
epic, every story whose `epic_id` matches, and every functional /
gherkin test whose `story_id` is among the deleted stories' ids, and
report `deleted_stories_count`. -/
def delete_epic (epic_id : String) (r : GenerationResults) :
    Option (GenerationResults × Nat) :=
  if r.epics.any (fun e => e.id = epic_id) then
    let deleted_story_ids := deleted_story_ids epic_id r
    some ({ r with
            epics := r.epics.filter (fun e => ¬ e.id = epic_id),
            user_stories :=
              r.user_stories.filter (fun s => ¬ s.epic_id = epic_id),
            functional_tests := r.functional_tests.filter
              (fun t => ¬ t.story_id ∈ deleted_story_ids),
            gherkin_tests := r.gherkin_tests.filter
              (fun t => ¬ t.story_id ∈ deleted_story_ids) },
          deleted_story_ids.length)
  else none

/-! ## Story-test regeneration (`generation.py`, `_regenerate_tests`) -/

/-- The gap-fix selection used by `_regenerate_tests` (and the other
regeneration paths): a gap fix contributes a correction to the generator
request exactly when `gf.user_action == "accept"`, or
`gf.user_action == "edit"` and `gf.final_text` is truthy (a non-`None`,
non-empty string). -/
def gapFixContributes (gf : GapFix) : Bool :=
  gf.user_action == some "accept" ||
    (gf.user_action == some "edit" &&
      match gf.final_text with
      | some s => s != ""
      | none => false)

/-- Stamp a freshly generated functional test with the regeneration
timestamp (`test.regenerated_at = datetime.now()`). -/
def stampFunctional (now : Nat) (t : FunctionalTest) : FunctionalTest :=
  { t with regenerated_at := some now }

/-- Stamp a freshly generated gherkin scenario with the regeneration
timestamp. -/
def stampGherkin (now : Nat) (g : GherkinScenario) : GherkinScenario :=
  { g with regenerated_at := some now }

/-- Body of `_regenerate_tests` acting on the artifact store, with the two
external generator calls passed in as `Except` results (in source order:
the functional-test call happens first, then the old functional tests for
the story are removed and the new ones appended, then the gherkin call,
then the gherkin swap, then the story's `regeneration_needed` flag is
cleared).  A raised exception is caught by the surrounding `try` after any
mutations already performed, so an `Except.error` stops the update at the
corresponding point and returns the store as it is then. -/
def regenerate_tests (story_id : String) (now : Nat)
    (functional_result : Except String (List FunctionalTest))
    (gherkin_result : Except String (List GherkinScenario))
    (r : GenerationResults) : GenerationResults :=
  match functional_result with
  | .error _ => r
  | .ok newF =>
    let r1 : GenerationResults := { r with functional_tests :=
      ((r.functional_tests.filter (fun t => ¬ t.story_id = story_id)) ++
        newF.map (stampFunctional now)) }
    match gherkin_result with
    | .error _ => r1
    | .ok newG =>
      let r2 : GenerationResults := { r1 with gherkin_tests :=
        ((r1.gherkin_tests.filter (fun t => ¬ t.story_id = story_id)) ++
          newG.map (stampGherkin now)) }
      { r2 with user_stories := r2.user_stories.map (fun s =>
          if s.id = story_id then { s with regeneration_needed := false }
          else s) }

/-! ## Generate more tests for a story (`generation.py`,
`generate_more_tests`) -/

/-- The chunk identifiers collected by `generate_more_tests` (and by
`_regenerate_tests`): the story's own `source_chunks` together with every
acceptance criterion's `source_chunks` (a `None` field contributes
nothing).  The source collects them into a set; the list here carries the
same membership. -/
def story_chunk_ids (story : UserStory) : List String :=
  story.source_chunks.getD [] ++
    (story.acceptance_criteria.map (fun ac => ac.source_chunks.getD [])).flatten

/-- Resolution of collected chunk ids against the job's chunk index:
`[c for c in all_chunks if c['id'] in chunk_ids]`. -/
def resolve_chunks (ids : List String) (all_chunks : List Chunk) :
    List Chunk :=
  all_chunks.filter (fun c => c.id ∈ ids)

/-- `generate_more_tests` route body after job lookup, with the external
generator's parsed output passed in as `newTests`.  Error paths (HTTP
status code on the `Except.error` side) raise before any mutation, so
they return the job unchanged; the success path appends the new tests and
reports their count. -/
def generate_more_tests (story_id : String) (newTests : List FunctionalTest)
    (job : Job) : Job × Except Nat Nat :=
  match job.results.user_stories.find? (fun s => s.id = story_id) with
  | none => (job, .error 404)
  | some story =>
    let chunk_ids := story_chunk_ids story
    if chunk_ids.isEmpty then (job, .error 400)
    else
      let all_chunks := (job.brd_data.map (·.chunks)).getD []
      let brd_chunks := resolve_chunks chunk_ids all_chunks
      if brd_chunks.isEmpty then (job, .error 400)
      else
        ({ job with results := { job.results with
             functional_tests := job.results.functional_tests ++ newTests } },
         .ok newTests.length)

/-! ## Cascade-impact analysis (`generation.py`, `analyze_cascade_impact`) -/

/-- The three-band risk classifier of `analyze_cascade_impact`: start at
`"low"`, promote to `"medium"` when `total_affected_tests > 5 or
affected_entities > 3`, then to `"high"` when `total_affected_tests > 10
or affected_entities > 5`. -/
def risk_level (total_affected_tests affected_entities : Nat) : String :=
  if 10 < total_affected_tests ∨ 5 < affected_entities then "high"
  else if 5 < total_affected_tests ∨ 3 < affected_entities then "medium"
  else "low"

/-- Numeric order of the risk bands: low < medium < high. -/
def risk_rank (s : String) : Nat :=
  if s = "high" then 2 else if s = "medium" then 1 else 0

/-- `DependencyImpact` from `schemas.py`. -/
structure DependencyImpact where
  affected_tests : Nat := 0
  affected_entities : Nat := 0
  affected_code : Nat := 0
  estimated_time_seconds : Nat := 0
  risk_level : String := "low"
deriving DecidableEq, Repr

/-- `analyze_cascade_impact` route body after job lookup: `none` when the
story does not exist (HTTP 404); otherwise count the story's functional
and gherkin tests, count entities whose (truthy) `source_story_ids`
contain the story, estimate time as `tests*10 + entities*15`, and
classify the risk. -/
def analyze_cascade_impact (story_id : String) (r : GenerationResults) :
    Option DependencyImpact :=
  if r.user_stories.any (fun s => s.id = story_id) then
    let aft := (r.functional_tests.filter
      (fun t => t.story_id = story_id)).length
    let agt := (r.gherkin_tests.filter
      (fun t => t.story_id = story_id)).length
    let total := aft + agt
    let ae := (r.entities.filter (fun e =>
      match e.source_story_ids with
      | some ids => ¬ ids = [] ∧ story_id ∈ ids
      | none => False)).length
    some { affected_tests := total,
           affected_entities := ae,
           affected_code := 0,
           estimated_time_seconds := total * 10 + ae * 15,
           risk_level := risk_level total ae }
  else none

/-! ## Staged pipeline state machine (`job_manager.py`,
`staged_endpoints.py`) -/

/-- `Job.advance_stage`: when a current stage exists, every stage-history
entry whose stage equals it is marked `completed`, given the completion
timestamp, and flagged user-approved (the Python loop has no `break`);
then the current stage is set to `next_stage` and a fresh `running`
`StageState` is appended. -/
def advance_stage (job : Job) (next_stage : PipelineStage) (now : Nat) :
    Job :=
  let history :=
    match job.current_stage with
    | none => job.stage_history
    | some cur =>
      job.stage_history.map (fun st =>
        if st.stage = cur then
          { st with status := .completed, completed_at := some now,
                    user_approved := true }
        else st)
  { job with
    current_stage := some next_stage,
    stage_history := history ++ [{ stage := next_stage, status := .running }] }

/-- The already-completed check of `proceed_to_stage`: some stage-history
entry for the requested stage has status `completed`. -/
def stage_already_completed (job : Job) (stage : PipelineStage) : Bool :=
  job.stage_history.any
    (fun s => s.stage = stage ∧ s.status = StepStatus.completed)

/-- Response discriminator of `proceed_to_stage`. -/
inductive ProceedStatus where
  | already_completed
  | started
deriving DecidableEq, Repr

/-- Synchronous part of the `proceed_to_stage` endpoint after job lookup
and stage parsing: when the requested stage already has a `completed`
stage state it only updates `current_stage` and reports
`already_completed` (no new stage state, no generation); otherwise it
advances the stage machine and schedules generation in the background
(the returned job is the state at response time). -/
def proceed_to_stage (job : Job) (stage : PipelineStage) (now : Nat) :
    Job × ProceedStatus :=
  if stage_already_completed job stage then
    ({ job with current_stage := some stage }, .already_completed)
  else
    (advance_stage job stage now, .started)

/-! ## Monolithic pipeline run (`generation_pipeline.py`,
`GenerationPipeline.run`)

The run is modelled as the sequence of step-list updates it performs.
Each stage helper wraps its work in `update_step(name, RUNNING)` … then
either `update_step(name, COMPLETED, duration)` or, on exception,
`update_step(name, FAILED)` followed by a re-raise; `run` stops at the
first failing stage and its handler additionally walks the step list and
marks the first `running` step `failed`.  External-call outcomes are the
`RunOutcomes` booleans; the `user_stories` / `entities` non-emptiness
guards of steps 3–6 are the booleans `stories` / `entities`. -/

/-- `ArtefactsConfig` from `schemas.py`. -/
structure ArtefactsConfig where
  epics_and_stories : Bool := true
  functional_tests : Bool := true
  gherkin_tests : Bool := true
  data_model : Bool := true
  code_skeleton : Bool := true
deriving DecidableEq, Repr

/-- Success/failure of each stage's external work during one run. -/
structure RunOutcomes where
  parse_ok : Bool := true
  epics_ok : Bool := true
  data_model_ok : Bool := true
  functional_ok : Bool := true
  gherkin_ok : Bool := true
  code_ok : Bool := true
deriving DecidableEq, Repr

/-- One `job.update_step(...)` call performed by the run. -/
inductive StepEvent where
  | upd (name : String) (status : StepStatus) (duration_ms : Option Nat)
deriving DecidableEq, Repr

/-- Apply one step-update event to the step list. -/
def applyEvent (steps : List Step) : StepEvent → List Step
  | .upd n st d => update_step steps n st d

/-- Number of steps currently in `running` status. -/
def countRunning (steps : List Step) : Nat :=
  steps.countP (fun s => s.status == StepStatus.running)

/-- The failure handler's walk in `GenerationPipeline.run`: set the first
`running` step to `failed` and stop. -/
def fail_running_step : List Step → List Step
  | [] => []
  | s :: rest =>
    if s.status == StepStatus.running then
      { s with status := .failed } :: rest
    else s :: fail_running_step rest

/-- The step-update pattern of one stage of the run: either a plain stage
(one step set `running` then `completed`/`failed`), or the epics stage,
which runs the "Generating project name" step and, on success, also marks
"Generating EPICs & User Stories" completed without ever setting it
`running`. -/
inductive BlockSpec where
  | stage (name : String) (ok : Bool)
  | epics (ok : Bool)
deriving DecidableEq, Repr

/-- Whether the stage succeeded. -/
def blockOk : BlockSpec → Bool
  | .stage _ ok => ok
  | .epics ok => ok

/-- The step-update events a stage performs (durations are abstracted to
`0`; their value never affects statuses). -/
def blockEvents : BlockSpec → List StepEvent
  | .stage n true => [.upd n .running none, .upd n .completed (some 0)]
  | .stage n false => [.upd n .running none, .upd n .failed none]
  | .epics true =>
      [.upd "Generating project name" .running none,
       .upd "Generating project name" .completed (some 0),
       .upd "Generating EPICs & User Stories" .completed (some 0)]
  | .epics false =>
      [.upd "Generating project name" .running none,
       .upd "Generating project name" .failed none]

/-- Keep the enabled stages in order, stopping after the first failing
one (its exception propagates to `run`'s handler). -/
def selectBlocks : List (Bool × BlockSpec) → List BlockSpec
  | [] => []
  | (enabled, b) :: rest =>
    if enabled then
      if blockOk b then b :: selectBlocks rest else [b]
    else selectBlocks rest

/-- The stages `GenerationPipeline.run` executes, in source order with
their enablement guards. -/
def pipeline_blocks (cfg : ArtefactsConfig) (o : RunOutcomes)
    (stories entities : Bool) : List BlockSpec :=
  selectBlocks
    [(true, .stage "Parsing documents" o.parse_ok),
     (cfg.epics_and_stories, .epics o.epics_ok),
     (cfg.data_model && stories, .stage "Generating Data Model" o.data_model_ok),
     (cfg.functional_tests && stories,
       .stage "Generating Functional Tests" o.functional_ok),
     (cfg.gherkin_tests && stories,
       .stage "Generating Gherkin Tests" o.gherkin_ok),
     (cfg.code_skeleton && entities,
       .stage "Generating Code Skeleton" o.code_ok)]

/-- All step-update events of a run. -/
def runEvents (blocks : List BlockSpec) : List StepEvent :=
  (blocks.map blockEvents).flatten

/-- Final step list after a list of events. -/
def execEvents (steps : List Step) (evs : List StepEvent) : List Step :=
  evs.foldl applyEvent steps

/-- Every step-list state along a list of events, initial state
included. -/
def traceFrom (steps : List Step) : List StepEvent → List (List Step)
  | [] => [steps]
  | e :: es => steps :: traceFrom (applyEvent steps e) es

/-- Whether the run ended in a stage failure (and hence executes the
`except` handler). -/
def run_failed (blocks : List BlockSpec) : Bool :=
  blocks.any (fun b => !blockOk b)

/-- The step lists initialised by the `/generate` endpoint: each enabled
phase gets one `pending` step, in source order. -/
def init_steps (cfg : ArtefactsConfig) : List Step :=
  let s0 := add_step [] "Parsing documents"
  let s1 := if cfg.epics_and_stories then
      add_step (add_step s0 "Generating project name")
        "Generating EPICs & User Stories"
    else s0
  let s2 := if cfg.data_model then add_step s1 "Generating Data Model" else s1
  let s3 := if cfg.functional_tests then
      add_step s2 "Generating Functional Tests" else s2
  let s4 := if cfg.gherkin_tests then
      add_step s3 "Generating Gherkin Tests" else s3
  if cfg.code_skeleton then add_step s4 "Generating Code Skeleton" else s4

/-- Every step-list state reachable during one monolithic run, including
(when a stage fails) the state after the failure handler's walk. -/
def pipeline_trace (init : List Step) (cfg : ArtefactsConfig)
    (o : RunOutcomes) (stories entities : Bool) : List (List Step) :=
  let blocks := pipeline_blocks cfg o stories entities
  let states := traceFrom init (runEvents blocks)
  if run_failed blocks then
    states ++ [fail_running_step (execEvents init (runEvents blocks))]
  else states

/-! ## Shared constructors for concrete stores -/

/-- A story with only identifying fields filled in. -/
def mkStory (id epic : String) : UserStory :=
  { id := id, epic_id := epic, title := "", role := "", goal := "",
    benefit := "", acceptance_criteria := [] }

/-- An epic with only identifying fields filled in. -/
def mkEpic (id : String) : Epic :=
  { id := id, name := id, description := "" }

/-- A functional test with only identifying fields filled in. -/
def mkFT (id sid : String) : FunctionalTest :=
  { id := id, story_id := sid, title := "", objective := "",
    preconditions := [], test_steps := [], expected_results := [] }

/-- A gherkin scenario with only identifying fields filled in. -/
def mkGS (id sid : String) : GherkinScenario :=
  { id := id, story_id := sid, feature_name := "", scenario_name := "",
    given := [], when_steps := [], then_steps := [] }

/-! ## C1 — epic deletion cascade -/

/-- C1: deleting an Epic removes that Epic, every story whose `epic_id`
matches, and exactly the functional tests and gherkin scenarios whose
`story_id` is among the deleted stories' ids, in one operation; the
reported count is the number of removed stories; afterwards no surviving
test references a deleted story, and all other collections (other epics,
other stories, tests of surviving stories, entities, gap fixes) are
unchanged. -/
theorem delete_epic_cascade (eid : String) (r r' : GenerationResults)
    (n : Nat) (h : delete_epic eid r = some (r', n)) :
    n = (r.user_stories.filter (fun s => s.epic_id = eid)).length
    ∧ r'.epics = r.epics.filter (fun e => ¬ e.id = eid)
    ∧ r'.user_stories = r.user_stories.filter (fun s => ¬ s.epic_id = eid)
    ∧ r'.functional_tests = r.functional_tests.filter
        (fun t => ¬ t.story_id ∈ deleted_story_ids eid r)
    ∧ r'.gherkin_tests = r.gherkin_tests.filter
        (fun t => ¬ t.story_id ∈ deleted_story_ids eid r)
    ∧ (∀ t ∈ r'.functional_tests, ¬ t.story_id ∈ deleted_story_ids eid r)
    ∧ (∀ t ∈ r'.gherkin_tests, ¬ t.story_id ∈ deleted_story_ids eid r)
    ∧ r'.entities = r.entities
    ∧ r'.gap_fixes = r.gap_fixes
    ∧ r'.project_name = r.project_name := by
  unfold delete_epic at h
  split at h
  · simp only [Option.some.injEq, Prod.mk.injEq] at h
    obtain ⟨h1, h2⟩ := h
    subst h1; subst h2
    refine ⟨by simp [deleted_story_ids], rfl, rfl, rfl, rfl, ?_, ?_, rfl,
      rfl, rfl⟩
    · intro t ht
      simpa using (List.mem_filter.mp ht).2
    · intro t ht
      simpa using (List.mem_filter.mp ht).2
  · exact absurd h (by simp)

/-- The C1 scenario store: epics A and B; A has stories s1, s2, s3, each
with two functional tests; B has story s4 with one functional test and a
gherkin scenario. -/
def scenarioStore : GenerationResults :=
  { epics := [mkEpic "A", mkEpic "B"],
    user_stories := [mkStory "s1" "A", mkStory "s2" "A", mkStory "s3" "A",
      mkStory "s4" "B"],
    functional_tests := [mkFT "t1" "s1", mkFT "t2" "s1", mkFT "t3" "s2",
      mkFT "t4" "s2", mkFT "t5" "s3", mkFT "t6" "s3", mkFT "t7" "s4"],
    gherkin_tests := [mkGS "g1" "s4"] }

/-- The store left by deleting epic A from the scenario store. -/
def scenarioStoreAfter : GenerationResults :=
  { scenarioStore with
    epics := [mkEpic "B"],
    user_stories := [mkStory "s4" "B"],
    functional_tests := [mkFT "t7" "s4"],
    gherkin_tests := [mkGS "g1" "s4"] }

theorem delete_epic_cascade_witness :
    delete_epic "A" scenarioStore = some (scenarioStoreAfter, 3)
    ∧ 3 = (scenarioStore.user_stories.filter
        (fun s => s.epic_id = "A")).length
    ∧ (∀ t ∈ scenarioStoreAfter.functional_tests,
        ¬ t.story_id ∈ deleted_story_ids "A" scenarioStore)
    ∧ scenarioStoreAfter.functional_tests.length + 6 =
        scenarioStore.functional_tests.length := by
  have h : delete_epic "A" scenarioStore = some (scenarioStoreAfter, 3) := by
    decide
  obtain ⟨c1, _, _, _, _, c6, _⟩ :=
    delete_epic_cascade "A" scenarioStore scenarioStoreAfter 3 h
  exact ⟨h, c1, c6, by decide⟩

/-! ## C4 — re-advancing to a completed stage is a no-op -/

/-- C4: when the requested stage already has a `completed` stage state,
`proceed_to_stage` reports `already_completed`, appends no stage state,
performs no generation, leaves the artifact store (and every other job
field) untouched, and only updates the current stage. -/
theorem proceed_already_completed (job : Job) (stage : PipelineStage)
    (now : Nat) (h : stage_already_completed job stage = true) :
    (proceed_to_stage job stage now).2 = ProceedStatus.already_completed
    ∧ (proceed_to_stage job stage now).1.stage_history = job.stage_history
    ∧ (proceed_to_stage job stage now).1.results = job.results
    ∧ (proceed_to_stage job stage now).1.steps = job.steps
    ∧ (proceed_to_stage job stage now).1.status = job.status
    ∧ (proceed_to_stage job stage now).1.error = job.error
    ∧ (proceed_to_stage job stage now).1.brd_data = job.brd_data
    ∧ (proceed_to_stage job stage now).1.current_stage = some stage := by
  simp [proceed_to_stage, h]

/-- A job whose epics stage is completed. -/
def completedJob : Job :=
  { job_id := "j1", current_stage := some .epics,
    stage_history := [{ stage := .epics, status := .completed }] }

theorem proceed_already_completed_witness :
    stage_already_completed completedJob .epics = true
    ∧ (proceed_to_stage completedJob .epics 7).2 =
        ProceedStatus.already_completed
    ∧ (proceed_to_stage completedJob .epics 7).1.stage_history =
        completedJob.stage_history
    ∧ (proceed_to_stage completedJob .epics 7).1.results =
        completedJob.results := by
  obtain ⟨c1, c2, c3, _⟩ :=
    proceed_already_completed completedJob .epics 7 (by decide)
  exact ⟨by decide, c1, c2, c3⟩

/-! ## C8 — risk classification is monotonic with three bands -/

/-- The rank of the risk label as a nested conditional on the counts. -/
theorem risk_rank_risk_level (t e : Nat) :
    risk_rank (risk_level t e) =
      if 10 < t ∨ 5 < e then 2 else if 5 < t ∨ 3 < e then 1 else 0 := by
  unfold risk_level
  split_ifs <;> rfl

/-- C8: the risk level computed by the cascade-impact analysis is
monotonic in the affected-tests and affected-entities counts (under
low < medium < high), and the classification attains all three bands. -/
theorem risk_level_monotone (t1 e1 t2 e2 : Nat) (ht : t1 ≤ t2)
    (he : e1 ≤ e2) :
    risk_rank (risk_level t1 e1) ≤ risk_rank (risk_level t2 e2)
    ∧ risk_level 0 0 = "low"
    ∧ risk_level 6 0 = "medium"
    ∧ risk_level 11 0 = "high" := by
  refine ⟨?_, rfl, rfl, rfl⟩
  rw [risk_rank_risk_level, risk_rank_risk_level]
  split_ifs <;> omega

theorem risk_level_monotone_witness :
    risk_rank (risk_level 2 1) ≤ risk_rank (risk_level 7 1)
    ∧ risk_level 6 0 = "medium" := by
  obtain ⟨c1, _, c3, _⟩ :=
    risk_level_monotone 2 1 7 1 (by decide) (by decide)
  exact ⟨c1, c3⟩

/-! ## C10 — step creation and lookup by name -/

/-- `update_step` never touches an index other than the first one whose
name matches. -/
theorem update_step_getElem_ne (steps : List Step) (name : String)
    (st : StepStatus) (d : Option Nat) (j : Nat)
    (hj : ¬ j = steps.findIdx (fun s => s.name == name)) :
    (update_step steps name st d)[j]? = steps[j]? := by
  induction steps generalizing j with
  | nil => rfl
  | cons s rest ih =>
    by_cases hs : s.name = name
    · rw [List.findIdx_cons] at hj
      simp only [hs, beq_self_eq_true, cond_true] at hj
      simp only [update_step]
      simp only [hs, if_pos]
      cases j with
      | zero => exact absurd rfl hj
      | succ k => simp
    · rw [List.findIdx_cons] at hj
      have hb : (s.name == name) = false := by
        simpa using hs
      simp only [hb, cond_false] at hj
      simp only [update_step]
      simp only [hs, if_neg, if_false]
      cases j with
      | zero => simp
      | succ k =>
        simp only [List.getElem?_cons_succ]
        exact ih k (fun hk => hj (by rw [hk]))

/-- `update_step` with a name no step carries is the identity. -/
theorem update_step_no_match (steps : List Step) (name : String)
    (st : StepStatus) (d : Option Nat)
    (h : ∀ s ∈ steps, ¬ s.name = name) :
    update_step steps name st d = steps := by
  induction steps with
  | nil => rfl
  | cons s rest ih =>
    simp only [update_step]
    rw [if_neg (h s (by simp))]
    rw [ih (fun x hx => h x (by simp [hx]))]

/-- C10: `add_step` appends a fresh `pending` step without any name
uniqueness check; `update_step` mutates at most the first step (in list
order) whose name matches — every other index is untouched, so a later
duplicate is never updated — and when no step matches it changes nothing
and raises no error. -/
theorem step_ops (steps : List Step) (name : String) (st : StepStatus)
    (d : Option Nat) :
    (add_step steps name).length = steps.length + 1
    ∧ (add_step steps name).getLast? =
        some { name := name, status := .pending }
    ∧ (∀ j, ¬ j = steps.findIdx (fun s => s.name == name) →
        (update_step steps name st d)[j]? = steps[j]?)
    ∧ ((∀ s ∈ steps, ¬ s.name = name) →
        update_step steps name st d = steps) := by
  refine ⟨by simp [add_step], ?_, ?_, update_step_no_match steps name st d⟩
  · simp [add_step]
  · intro j hj
    exact update_step_getElem_ne steps name st d j hj

/-- Step list with a duplicated name. -/
def dupSteps : List Step :=
  [{ name := "a", status := .pending }, { name := "a", status := .pending },
   { name := "b", status := .pending }]

theorem step_ops_witness :
    (update_step dupSteps "a" .running none)[1]? = dupSteps[1]?
    ∧ (add_step dupSteps "a").length = dupSteps.length + 1
    ∧ update_step dupSteps "c" .running none = dupSteps
    ∧ update_step dupSteps "a" .running none =
        [{ name := "a", status := .running },
         { name := "a", status := .pending },
         { name := "b", status := .pending }] := by
  obtain ⟨h1, _, h3, _⟩ := step_ops dupSteps "a" .running none
  obtain ⟨_, _, _, h4⟩ := step_ops dupSteps "c" .running none
  exact ⟨h3 1 (by decide), h1, h4 (by decide), by decide⟩

/-! ## C6 — at most one step running during a monolithic run -/

theorem countRunning_cons (s : Step) (rest : List Step) :
    countRunning (s :: rest) =
      countRunning rest +
        (if s.status == StepStatus.running then 1 else 0) := by
  simp [countRunning, List.countP_cons]

/-- Setting one step `running` from an all-quiet list yields at most one
running step. -/
theorem countRunning_update_running_le (steps : List Step) (n : String)
    (d : Option Nat) (h : countRunning steps = 0) :
    countRunning (update_step steps n .running d) ≤ 1 := by
  induction steps with
  | nil => simp [update_step, countRunning]
  | cons s rest ih =>
    rw [countRunning_cons] at h
    have h1 : countRunning rest = 0 := by omega
    simp only [update_step]
    split
    · rw [countRunning_cons]
      simp [h1]
    · rw [countRunning_cons]
      have hs2 : (s.status == StepStatus.running) = false := by
        cases hb : (s.status == StepStatus.running) with
        | false => rfl
        | true => rw [hb] at h; simp at h
      rw [hs2]
      simpa using ih h1

/-- Setting a step `running` and then re-updating the same name with a
non-`running` status restores an all-quiet list. -/
theorem countRunning_update_twice (steps : List Step) (n : String)
    (st : StepStatus) (d d' : Option Nat) (hst : ¬ st = .running)
    (h : countRunning steps = 0) :
    countRunning (update_step (update_step steps n .running d) n st d')
      = 0 := by
  induction steps with
  | nil => simp [update_step, countRunning]
  | cons s rest ih =>
    rw [countRunning_cons] at h
    have h1 : countRunning rest = 0 := by omega
    have h2 : (s.status == StepStatus.running) = false := by
      cases hb : (s.status == StepStatus.running) with
      | false => rfl
      | true => rw [hb] at h; simp at h
    by_cases hs : s.name = n
    · simp only [update_step, if_pos hs]
      rw [countRunning_cons]
      have hstb : (st == StepStatus.running) = false := by
        simpa using hst
      rw [hstb]
      simpa using h1
    · simp only [update_step, if_neg hs]
      rw [countRunning_cons, h2]
      simpa using ih h1

/-- Updating with a non-`running` status never increases the number of
running steps. -/
theorem countRunning_update_le_of_ne (steps : List Step) (n : String)
    (st : StepStatus) (d : Option Nat) (hst : ¬ st = .running) :
    countRunning (update_step steps n st d) ≤ countRunning steps := by
  induction steps with
  | nil => simp [update_step]
  | cons s rest ih =>
    by_cases hs : s.name = n
    · simp only [update_step, if_pos hs]
      rw [countRunning_cons, countRunning_cons]
      have hstb : (st == StepStatus.running) = false := by
        simpa using hst
      rw [hstb]
      cases hbs : (s.status == StepStatus.running) <;> simp [hbs]
    · simp only [update_step, if_neg hs]
      rw [countRunning_cons, countRunning_cons]
      have := ih
      omega

/-- The failure handler's walk never increases the number of running
steps. -/
theorem countRunning_fail_running_le (steps : List Step) :
    countRunning (fail_running_step steps) ≤ countRunning steps := by
  induction steps with
  | nil => simp [fail_running_step]
  | cons s rest ih =>
    simp only [fail_running_step]
    split
    · rw [countRunning_cons, countRunning_cons]
      simp only [show ((StepStatus.failed == StepStatus.running) = false)
        from rfl]
      split <;> omega
    · rw [countRunning_cons, countRunning_cons]
      omega

theorem execEvents_append (steps : List Step) (l1 l2 : List StepEvent) :
    execEvents steps (l1 ++ l2) = execEvents (execEvents steps l1) l2 := by
  simp [execEvents, List.foldl_append]

/-- A state along an appended event list lies along the first part or
along the second part started from the first part's final state. -/
theorem mem_traceFrom_append (steps : List Step) (l1 l2 : List StepEvent)
    (st : List Step) (h : st ∈ traceFrom steps (l1 ++ l2)) :
    st ∈ traceFrom steps l1 ∨ st ∈ traceFrom (execEvents steps l1) l2 := by
  induction l1 generalizing steps with
  | nil =>
    right
    simpa [execEvents] using h
  | cons e es ih =>
    simp only [List.cons_append, traceFrom, List.mem_cons] at h
    rcases h with h | h
    · left; simp [traceFrom, h]
    · rcases ih (applyEvent steps e) h with h' | h'
      · left
        simp only [traceFrom, List.mem_cons]
        exact Or.inr h'
      · right
        simpa [execEvents] using h'

/-- Every state along one stage's events has at most one running step,
and the stage ends all-quiet. -/
theorem block_invariant (b : BlockSpec) (steps : List Step)
    (h : countRunning steps = 0) :
    (∀ st ∈ traceFrom steps (blockEvents b), countRunning st ≤ 1)
    ∧ countRunning (execEvents steps (blockEvents b)) = 0 := by
  have hc : ¬ StepStatus.completed = StepStatus.running := by
    intro hx; cases hx
  have hf : ¬ StepStatus.failed = StepStatus.running := by
    intro hx; cases hx
  cases b with
  | stage n ok =>
    cases ok
    · refine ⟨?_, ?_⟩
      · intro st hst
        simp only [blockEvents, traceFrom, applyEvent, List.mem_cons,
          List.mem_singleton, List.not_mem_nil, or_false] at hst
        rcases hst with rfl | rfl | rfl
        · omega
        · exact countRunning_update_running_le steps n none h
        · rw [countRunning_update_twice steps n .failed none none hf h]
          omega
      · simp only [blockEvents, execEvents, List.foldl_cons,
          List.foldl_nil, applyEvent]
        exact countRunning_update_twice steps n .failed none none hf h
    · refine ⟨?_, ?_⟩
      · intro st hst
        simp only [blockEvents, traceFrom, applyEvent, List.mem_cons,
          List.mem_singleton, List.not_mem_nil, or_false] at hst
        rcases hst with rfl | rfl | rfl
        · omega
        · exact countRunning_update_running_le steps n none h
        · rw [countRunning_update_twice steps n .completed none (some 0)
            hc h]
          omega
      · simp only [blockEvents, execEvents, List.foldl_cons,
          List.foldl_nil, applyEvent]
        exact countRunning_update_twice steps n .completed none (some 0) hc h
  | epics ok =>
    cases ok
    · refine ⟨?_, ?_⟩
      · intro st hst
        simp only [blockEvents, traceFrom, applyEvent, List.mem_cons,
          List.mem_singleton, List.not_mem_nil, or_false] at hst
        rcases hst with rfl | rfl | rfl
        · omega
        · exact countRunning_update_running_le steps _ none h
        · rw [countRunning_update_twice steps _ .failed none none hf h]
          omega
      · simp only [blockEvents, execEvents, List.foldl_cons,
          List.foldl_nil, applyEvent]
        exact countRunning_update_twice steps _ .failed none none hf h
    · have hmid := countRunning_update_twice steps "Generating project name"
        .completed none (some 0) hc h
      refine ⟨?_, ?_⟩
      · intro st hst
        simp only [blockEvents, traceFrom, applyEvent, List.mem_cons,
          List.mem_singleton, List.not_mem_nil, or_false] at hst
        rcases hst with rfl | rfl | rfl | rfl
        · omega
        · exact countRunning_update_running_le steps _ none h
        · rw [hmid]; omega
        · have h3 := countRunning_update_le_of_ne
            (update_step (update_step steps "Generating project name"
              .running none) "Generating project name" .completed (some 0))
            "Generating EPICs & User Stories" .completed (some 0) hc
          omega
      · simp only [blockEvents, execEvents, List.foldl_cons,
          List.foldl_nil, applyEvent]
        have := countRunning_update_le_of_ne
          (update_step (update_step steps "Generating project name"
            .running none) "Generating project name" .completed (some 0))
          "Generating EPICs & User Stories" .completed (some 0) hc
        omega

/-- Invariant along a whole run: every state has at most one running
step and the run (absent the failure handler) ends all-quiet. -/
theorem blocks_invariant (bs : List BlockSpec) (steps : List Step)
    (h : countRunning steps = 0) :
    (∀ st ∈ traceFrom steps (runEvents bs), countRunning st ≤ 1)
    ∧ countRunning (execEvents steps (runEvents bs)) = 0 := by
  induction bs generalizing steps with
  | nil =>
    refine ⟨?_, by simpa [runEvents, execEvents] using h⟩
    intro st hst
    simp only [runEvents, List.map_nil, List.flatten_nil, traceFrom,
      List.mem_singleton] at hst
    subst hst
    omega
  | cons b rest ih =>
    have hblock := block_invariant b steps h
    have hrest := ih (execEvents steps (blockEvents b)) hblock.2
    have hre : runEvents (b :: rest) = blockEvents b ++ runEvents rest := by
      simp [runEvents]
    refine ⟨?_, ?_⟩
    · intro st hst
      rw [hre] at hst
      rcases mem_traceFrom_append _ _ _ _ hst with h' | h'
      · exact hblock.1 st h'
      · exact hrest.1 st h'
    · rw [hre, execEvents_append]
      exact hrest.2

/-- The `/generate` endpoint initialises every step `pending`. -/
theorem countRunning_init_steps (cfg : ArtefactsConfig) :
    countRunning (init_steps cfg) = 0 := by
  have hadd : ∀ steps name,
      countRunning (add_step steps name) = countRunning steps := by
    intro steps name
    simp [add_step, countRunning, List.countP_append]
  simp only [init_steps]
  split_ifs <;> decide

/-- C6: for every configuration and every pattern of stage outcomes, at
every point during a monolithic pipeline run — every state reachable by
the run's sequence of step updates, including the state after the
failure handler — at most one step in the job's step list has status
`running`. -/
theorem pipeline_at_most_one_running (cfg : ArtefactsConfig)
    (o : RunOutcomes) (stories entities : Bool) (st : List Step)
    (h : st ∈ pipeline_trace (init_steps cfg) cfg o stories entities) :
    countRunning st ≤ 1 := by
  have h0 := countRunning_init_steps cfg
  have hinv := blocks_invariant (pipeline_blocks cfg o stories entities)
    (init_steps cfg) h0
  simp only [pipeline_trace] at h
  split at h
  · rcases List.mem_append.mp h with h' | h'
    · exact hinv.1 st h'
    · have hst : st = fail_running_step (execEvents (init_steps cfg)
        (runEvents (pipeline_blocks cfg o stories entities))) := by
        simpa using h'
      subst hst
      have := countRunning_fail_running_le (execEvents (init_steps cfg)
        (runEvents (pipeline_blocks cfg o stories entities)))
      omega
  · exact hinv.1 st h

theorem pipeline_at_most_one_running_witness :
    update_step (init_steps {}) "Parsing documents" .running none ∈
      pipeline_trace (init_steps {}) {} {} true true
    ∧ countRunning
        (update_step (init_steps {}) "Parsing documents" .running none)
        ≤ 1 :=
  ⟨by decide,
   pipeline_at_most_one_running {} {} true true _ (by decide)⟩

/-! ## C2 / C3 — story-test regeneration -/

/-- Filtering for a property after filtering for its negation leaves
nothing. -/
theorem filter_not_filter {α : Type} (p : α → Prop) [DecidablePred p]
    (l : List α) :
    (l.filter (fun a => ¬ p a)).filter (fun a => p a) = [] := by
  rw [List.filter_eq_nil_iff]
  intro a ha
  have h2 := (List.mem_filter.mp ha).2
  simp at h2 ⊢
  exact h2

/-- Re-filtering for the same negated property is the identity. -/
theorem filter_not_idem {α : Type} (p : α → Prop) [DecidablePred p]
    (l : List α) :
    (l.filter (fun a => ¬ p a)).filter (fun a => ¬ p a) =
      l.filter (fun a => ¬ p a) := by
  rw [List.filter_eq_self]
  intro a ha
  exact (List.mem_filter.mp ha).2

/-- Shape of a fully successful regeneration: both collections are
swapped and the story's flag is cleared. -/
theorem regenerate_tests_ok (sid : String) (now : Nat)
    (newF : List FunctionalTest) (newG : List GherkinScenario)
    (r : GenerationResults) :
    regenerate_tests sid now (.ok newF) (.ok newG) r =
      { r with
        functional_tests :=
          ((r.functional_tests.filter (fun t => ¬ t.story_id = sid)) ++
            newF.map (stampFunctional now)),
        gherkin_tests :=
          ((r.gherkin_tests.filter (fun t => ¬ t.story_id = sid)) ++
            newG.map (stampGherkin now)),
        user_stories := r.user_stories.map (fun s =>
          if s.id = sid then { s with regeneration_needed := false }
          else s) } := rfl

/-- C2: after a successful regeneration of story `sid` (both generator
calls succeed and, being scoped to that story, return only tests for it):
the tests for `sid` in the store are exactly the freshly generated ones,
each stamped with the regeneration timestamp; no pre-existing test for
`sid` survives; tests of other stories are exactly as before; and `sid`'s
`regeneration_needed` flag is false. -/
theorem regenerate_story_tests_replaces (sid : String) (now : Nat)
    (newF : List FunctionalTest) (newG : List GherkinScenario)
    (r r' : GenerationResults)
    (h : regenerate_tests sid now (.ok newF) (.ok newG) r = r')
    (hF : ∀ t ∈ newF, t.story_id = sid)
    (hG : ∀ g ∈ newG, g.story_id = sid) :
    r'.functional_tests =
      r.functional_tests.filter (fun t => ¬ t.story_id = sid) ++
        newF.map (stampFunctional now)
    ∧ r'.gherkin_tests =
      r.gherkin_tests.filter (fun t => ¬ t.story_id = sid) ++
        newG.map (stampGherkin now)
    ∧ r'.functional_tests.filter (fun t => t.story_id = sid) =
      newF.map (stampFunctional now)
    ∧ r'.gherkin_tests.filter (fun t => t.story_id = sid) =
      newG.map (stampGherkin now)
    ∧ (∀ t ∈ r'.functional_tests,
        t.story_id = sid → t.regenerated_at = some now)
    ∧ (∀ t ∈ r'.gherkin_tests,
        t.story_id = sid → t.regenerated_at = some now)
    ∧ r'.functional_tests.filter (fun t => ¬ t.story_id = sid) =
      r.functional_tests.filter (fun t => ¬ t.story_id = sid)
    ∧ r'.gherkin_tests.filter (fun t => ¬ t.story_id = sid) =
      r.gherkin_tests.filter (fun t => ¬ t.story_id = sid)
    ∧ (∀ s ∈ r'.user_stories, s.id = sid → s.regeneration_needed = false)
    ∧ r'.epics = r.epics
    ∧ r'.entities = r.entities := by
  subst h
  simp only [regenerate_tests_ok]
  have hmapF : ∀ a ∈ newF.map (stampFunctional now), a.story_id = sid := by
    intro a ha
    obtain ⟨t, ht, rfl⟩ := List.mem_map.mp ha
    exact hF t ht
  have hmapG : ∀ a ∈ newG.map (stampGherkin now), a.story_id = sid := by
    intro a ha
    obtain ⟨t, ht, rfl⟩ := List.mem_map.mp ha
    exact hG t ht
  refine ⟨trivial, trivial, ?_, ?_, ?_, ?_, ?_, ?_, ?_, trivial, trivial⟩
  · rw [List.filter_append,
      filter_not_filter (fun t : FunctionalTest => t.story_id = sid),
      List.nil_append, List.filter_eq_self]
    intro a ha
    simpa using hmapF a ha
  · rw [List.filter_append,
      filter_not_filter (fun t : GherkinScenario => t.story_id = sid),
      List.nil_append, List.filter_eq_self]
    intro a ha
    simpa using hmapG a ha
  · intro t ht hsid
    rcases List.mem_append.mp ht with h' | h'
    · have := (List.mem_filter.mp h').2
      simp [hsid] at this
    · obtain ⟨x, _, rfl⟩ := List.mem_map.mp h'
      rfl
  · intro t ht hsid
    rcases List.mem_append.mp ht with h' | h'
    · have := (List.mem_filter.mp h').2
      simp [hsid] at this
    · obtain ⟨x, _, rfl⟩ := List.mem_map.mp h'
      rfl
  · rw [List.filter_append,
      filter_not_idem (fun t : FunctionalTest => t.story_id = sid)]
    have : (newF.map (stampFunctional now)).filter
        (fun t => ¬ t.story_id = sid) = [] := by
      rw [List.filter_eq_nil_iff]
      intro a ha
      simp [hmapF a ha]
    rw [this, List.append_nil]
  · rw [List.filter_append,
      filter_not_idem (fun t : GherkinScenario => t.story_id = sid)]
    have : (newG.map (stampGherkin now)).filter
        (fun t => ¬ t.story_id = sid) = [] := by
      rw [List.filter_eq_nil_iff]
      intro a ha
      simp [hmapG a ha]
    rw [this, List.append_nil]
  · intro s hs hid
    obtain ⟨x, _, rfl⟩ := List.mem_map.mp hs
    by_cases hx : x.id = sid
    · simp [hx]
    · simp only [if_neg hx] at hid ⊢
      exact absurd hid hx

/-- A store with tests and scenarios for two stories, story s1 flagged
for regeneration. -/
def regenStore : GenerationResults :=
  { user_stories := [{ mkStory "s1" "A" with regeneration_needed := true },
      mkStory "s2" "A"],
    functional_tests := [mkFT "t1" "s1", mkFT "t2" "s2"],
    gherkin_tests := [mkGS "g1" "s1", mkGS "g2" "s2"] }

theorem regenerate_story_tests_replaces_witness :
    (regenerate_tests "s1" 9 (.ok [mkFT "nt" "s1"]) (.ok [mkGS "ng" "s1"])
      regenStore).functional_tests.filter (fun t => t.story_id = "s1") =
      [stampFunctional 9 (mkFT "nt" "s1")]
    ∧ (regenerate_tests "s1" 9 (.ok [mkFT "nt" "s1"])
        (.ok [mkGS "ng" "s1"]) regenStore).functional_tests =
      [mkFT "t2" "s2", stampFunctional 9 (mkFT "nt" "s1")]
    ∧ (∀ s ∈ (regenerate_tests "s1" 9 (.ok [mkFT "nt" "s1"])
        (.ok [mkGS "ng" "s1"]) regenStore).user_stories,
        s.id = "s1" → s.regeneration_needed = false) := by
  obtain ⟨_, _, c3, _, _, _, _, _, c9, _, _⟩ :=
    regenerate_story_tests_replaces "s1" 9 [mkFT "nt" "s1"]
      [mkGS "ng" "s1"] regenStore
      (regenerate_tests "s1" 9 (.ok [mkFT "nt" "s1"])
        (.ok [mkGS "ng" "s1"]) regenStore)
      rfl (by decide) (by decide)
  exact ⟨c3, by decide, c9⟩

/-- A store about to be regenerated, with one functional test and one
gherkin scenario for story s1. -/
def regenStoreBefore : GenerationResults :=
  { user_stories := [{ mkStory "s1" "A" with regeneration_needed := true }],
    functional_tests := [mkFT "t1" "s1"],
    gherkin_tests := [mkGS "g1" "s1"] }

/-- C3 counterexample: when the functional-test call succeeds and the
gherkin call then raises, the store is left half-updated — the functional
tests already reflect the replacement while the gherkin scenarios are
exactly the old ones — contradicting "either both test collections
reflect the full replacement or both are as they were before the
call". -/
theorem regenerate_partial_failure_counterexample :
    ¬ (regenerate_tests "s1" 5 (.ok [mkFT "nt" "s1"]) (.error "boom")
        regenStoreBefore).functional_tests =
      regenStoreBefore.functional_tests
    ∧ (regenerate_tests "s1" 5 (.ok [mkFT "nt" "s1"]) (.error "boom")
        regenStoreBefore).gherkin_tests = regenStoreBefore.gherkin_tests
    ∧ (mkGS "g1" "s1") ∈ (regenerate_tests "s1" 5 (.ok [mkFT "nt" "s1"])
        (.error "boom") regenStoreBefore).gherkin_tests
    ∧ ¬ regenerate_tests "s1" 5 (.ok [mkFT "nt" "s1"]) (.error "boom")
        regenStoreBefore = regenStoreBefore := by
  decide

/-- C3 (amended): a failure of the first (functional-test) generator
call leaves the store untouched; a failure of the second (gherkin) call
after the first succeeded leaves the functional tests swapped while the
gherkin scenarios and the stories are as before (a half-updated store);
each collection's old tests are removed only after that collection's
replacement was produced, and on any failure the stories — hence every
`regeneration_needed` flag — are unchanged, so a flag that was `true`
stays `true`. -/
theorem regenerate_failure_states (sid : String) (now : Nat)
    (r : GenerationResults) :
    (∀ (e : String) (g : Except String (List GherkinScenario)),
      regenerate_tests sid now (.error e) g r = r)
    ∧ (∀ (newF : List FunctionalTest) (e : String),
      (regenerate_tests sid now (.ok newF) (.error e) r).gherkin_tests =
        r.gherkin_tests
      ∧ (regenerate_tests sid now (.ok newF) (.error e) r).user_stories =
        r.user_stories
      ∧ (regenerate_tests sid now (.ok newF) (.error e) r).functional_tests =
        r.functional_tests.filter (fun t => ¬ t.story_id = sid) ++
          newF.map (stampFunctional now)) :=
  ⟨fun _ _ => rfl, fun _ _ => ⟨rfl, rfl, rfl⟩⟩

/-! ## C5 — what `advance_stage` does to the stage history -/

/-- A job whose current stage has two stage-history entries: an earlier,
superseded one (completed at instant 1 and user-approved) and the most
recent one, still `running` — the state left by a failed epics run that
was then re-entered. -/
def staleJob : Job :=
  { job_id := "j2", current_stage := some .epics,
    stage_history :=
      [{ stage := .epics, status := .completed, completed_at := some 1,
         user_approved := true },
       { stage := .epics, status := .running }] }

/-- C5 counterexample: advancing `staleJob` (current stage `epics`,
requested stage `data_model` with no completed state) modifies the
earlier, superseded `epics` stage state — its completion timestamp is
overwritten — contrary to "any earlier, superseded StageState for that
same stage is left unmodified". -/
theorem advance_stage_counterexample :
    staleJob.current_stage = some PipelineStage.epics
    ∧ stage_already_completed staleJob .data_model = false
    ∧ ¬ (advance_stage staleJob .data_model 2).stage_history[0]? =
        staleJob.stage_history[0]? := by
  decide

/-- C5 (amended): for a job with a current stage, `advance_stage` marks
every stage-history entry for the current stage — not only the most
recent one — completed and user-approved with the fresh completion
timestamp (overwriting the timestamp of earlier, superseded entries),
leaves entries of other stages unmodified, appends exactly one new
`running` entry for the requested stage, and sets the current stage to
it. -/
theorem advance_stage_marks_all (job : Job) (next : PipelineStage)
    (now : Nat) (cur : PipelineStage)
    (hcur : job.current_stage = some cur)
    (_hnc : stage_already_completed job next = false) :
    (advance_stage job next now).current_stage = some next
    ∧ (advance_stage job next now).stage_history.length =
        job.stage_history.length + 1
    ∧ (advance_stage job next now).stage_history.getLast? =
        some { stage := next, status := .running }
    ∧ (∀ i, (advance_stage job next now).stage_history[i]? =
        if i = job.stage_history.length then
          some { stage := next, status := .running }
        else (job.stage_history[i]?).map (fun st =>
          if st.stage = cur then
            { st with status := .completed, completed_at := some now,
                      user_approved := true }
          else st)) := by
  simp only [advance_stage, hcur]
  refine ⟨trivial, by simp, by simp, ?_⟩
  intro i
  by_cases hi : i = job.stage_history.length
  · subst hi
    rw [if_pos rfl, List.getElem?_append,
      if_neg (by simp), List.length_map]
    simp
  · rw [if_neg hi]
    by_cases hlt : i < job.stage_history.length
    · rw [List.getElem?_append, if_pos (by simpa using hlt),
        List.getElem?_map]
    · have hge : job.stage_history.length + 1 ≤ i := by omega
      rw [List.getElem?_append, if_neg (by simp; omega)]
      rw [List.getElem?_eq_none (by simp; omega),
        List.getElem?_eq_none (by omega)]
      rfl

/-- A job mid-flight in its epics stage. -/
def advanceJob : Job :=
  { job_id := "j5", current_stage := some .epics,
    stage_history := [{ stage := .epics, status := .running }] }

theorem advance_stage_marks_all_witness :
    (advance_stage advanceJob .data_model 5).current_stage =
      some PipelineStage.data_model
    ∧ (advance_stage advanceJob .data_model 5).stage_history.length =
        advanceJob.stage_history.length + 1
    ∧ (advance_stage advanceJob .data_model 5).stage_history[0]? =
        some { stage := .epics, status := .completed,
               completed_at := some 5, user_approved := true } := by
  obtain ⟨c1, c2, _, c4⟩ := advance_stage_marks_all advanceJob .data_model
    5 .epics (by decide) (by decide)
  refine ⟨c1, c2, ?_⟩
  rw [c4 0]
  decide

/-! ## C7 — chunk resolution for per-story "generate more tests" -/

/-- C7: for the story the endpoint finds, the resolved chunks are
exactly the entries of the job's chunk index whose id belongs to the
union of the story's `source_chunks` and its acceptance criteria's
`source_chunks`; and when that union is empty the endpoint fails with
HTTP 400 and returns the job unchanged. -/
theorem generate_more_tests_resolution (job : Job) (sid : String)
    (newTests : List FunctionalTest) (story : UserStory)
    (hfind : job.results.user_stories.find? (fun s => s.id = sid) =
      some story) :
    (∀ c, c ∈ resolve_chunks (story_chunk_ids story)
        ((job.brd_data.map (·.chunks)).getD []) ↔
      c ∈ (job.brd_data.map (·.chunks)).getD [] ∧
        c.id ∈ story_chunk_ids story)
    ∧ (story_chunk_ids story = [] →
        generate_more_tests sid newTests job = (job, .error 400)) := by
  constructor
  · intro c
    simp [resolve_chunks, List.mem_filter]
  · intro hempty
    simp only [generate_more_tests, hfind, hempty]
    rfl

/-- A chunk index holding c1, c2, c3. -/
def chunkIndex : List Chunk :=
  [{ id := "c1", type := "text", text := "x1" },
   { id := "c2", type := "text", text := "x2" },
   { id := "c3", type := "text", text := "x3" }]

/-- Story s1 grounded in chunks c1 and c2. -/
def storyS1 : UserStory :=
  { mkStory "s1" "A" with source_chunks := some ["c1", "c2"] }

/-- Job holding story s1 and the three-chunk index. -/
def jobS1 : Job :=
  { job_id := "j3", results := { user_stories := [storyS1] },
    brd_data := some { chunks := chunkIndex } }

/-- Story s0 with no source chunks anywhere. -/
def storyNoChunks : UserStory := mkStory "s0" "A"

/-- Job holding only the chunkless story s0. -/
def jobNoChunks : Job :=
  { job_id := "j4", results := { user_stories := [storyNoChunks] } }

theorem generate_more_tests_resolution_witness :
    resolve_chunks (story_chunk_ids storyS1) chunkIndex =
      [{ id := "c1", type := "text", text := "x1" },
       { id := "c2", type := "text", text := "x2" }]
    ∧ ({ id := "c3", type := "text", text := "x3" } ∈
        resolve_chunks (story_chunk_ids storyS1)
          ((jobS1.brd_data.map (·.chunks)).getD []) ↔
      ({ id := "c3", type := "text", text := "x3" } ∈
          (jobS1.brd_data.map (·.chunks)).getD [] ∧
        "c3" ∈ story_chunk_ids storyS1))
    ∧ generate_more_tests "s0" [] jobNoChunks = (jobNoChunks, .error 400)
    := by
  obtain ⟨hiff, _⟩ := generate_more_tests_resolution jobS1 "s1" []
    storyS1 (by decide)
  obtain ⟨_, herr⟩ := generate_more_tests_resolution jobNoChunks "s0" []
    storyNoChunks (by decide)
  exact ⟨by decide, hiff _, herr (by decide)⟩

/-! ## C9 — gap-fix dispositions feeding regeneration -/

/-- A gap fix with the given disposition and final text. -/
def mkGapFix (action : Option String) (ft : Option String) : GapFix :=
  { gap_id := "gap_1", gap_description := "d", affected_section := "a",
    current_text := "c", suggested_fix := "f", rationale := "r",
    confidence := "high", user_action := action, final_text := ft }

/-- C9: evaluation of the regeneration path's gap-fix selection at the
disposition values documented in `schemas.py`
(`"accepted" | "edited" | "rejected" | "pending"`): a gap fix whose
disposition is `"accepted"`, or `"edited"` with final text, contributes
nothing, because the code compares against `"accept"` / `"edit"`;
`"pending"` and `"rejected"` contribute nothing; only the undocumented
values `"accept"` / `"edit"` select a gap fix. -/
theorem gapFix_accepted_not_contributing :
    gapFixContributes (mkGapFix (some "accepted") none) = false
    ∧ gapFixContributes (mkGapFix (some "edited") (some "fixed")) = false
    ∧ gapFixContributes (mkGapFix (some "pending") none) = false
    ∧ gapFixContributes (mkGapFix (some "rejected") none) = false
    ∧ gapFixContributes (mkGapFix none none) = false
    ∧ gapFixContributes (mkGapFix (some "accept") none) = true
    ∧ gapFixContributes (mkGapFix (some "edit") (some "fixed")) = true
    ∧ gapFixContributes (mkGapFix (some "edit") none) = false
    ∧ gapFixContributes (mkGapFix (some "edit") (some "")) = false := by
  decide

end SpecPilot
